import Mathlib

/-!
Shallow embedding of `octokit-load-balancer` (src/pool.ts, src/types.ts).

Strings exchanged with the JavaScript runtime are modelled by their byte
sequences (`List Nat`, each element < 256 for real strings); all string
literals used by the program are ASCII, so byte lists and character lists
coincide for them.  Dynamically typed JavaScript values reaching the
validation code are modelled by `JValue`.  The asynchronous quota probes
are modelled by an environment `env : Nat → RateLimitData` giving the
snapshot that the probe for the client at a given index reports; the
claims under study all assume every probe succeeds.
-/

namespace OLB

/-- Byte sequence of an ASCII string literal. -/
def strBytes (s : String) : List Nat := s.data.map Char.toNat

/-- Dynamically typed JavaScript value, as seen by the runtime validation
checks in `getApp`. -/
inductive JValue where
  | null
  | undefined
  | bool (b : Bool)
  | num (n : Int)
  | str (s : List Nat)
  | arr (xs : List JValue)
  | obj (fields : List (List Nat × JValue))

/-- JavaScript truthiness of a value. -/
def jTruthy : JValue → Bool
  | .null => false
  | .undefined => false
  | .bool b => b
  | .num n => n != 0
  | .str s => !s.isEmpty
  | .arr _ => true
  | .obj _ => true

/-- Whether `typeof v === 'object'` (true for null, arrays and plain objects). -/
def jsTypeofObject : JValue → Bool
  | .null => true
  | .arr _ => true
  | .obj _ => true
  | _ => false

/-- Whether `Array.isArray(v)` holds. -/
def isJSArray : JValue → Bool
  | .arr _ => true
  | _ => false

/-- Whether `typeof v === 'string'` holds. -/
def isJSString : JValue → Bool
  | .str _ => true
  | _ => false

/-- Whether the value is JavaScript `null`. -/
def isJNull : JValue → Bool
  | .null => true
  | _ => false

/-- Property access `v.key` (and `v?.key`: on null/undefined both yield
`undefined`, which is also what plain access on a non-object produces for
the keys used by this program). -/
def jProp (v : JValue) (key : List Nat) : JValue :=
  match v with
  | .obj fields =>
    match fields.find? (fun f => f.1 == key) with
    | some f => f.2
    | none => .undefined
  | _ => .undefined

/-- The `key in v` operator for the string keys this program tests. -/
def jHasProp (v : JValue) (key : List Nat) : Bool :=
  match v with
  | .obj fields => fields.any (fun f => f.1 == key)
  | _ => false

/-- Underlying element list of an array value. -/
def jArr : JValue → List JValue
  | .arr xs => xs
  | _ => []

/-- Underlying byte sequence of a string value. -/
def jStr : JValue → List Nat
  | .str s => s
  | _ => []

/-- Key `"apps"`. -/
def sApps : List Nat := strBytes "apps"

/-- Key `"baseUrl"`. -/
def sBaseUrl : List Nat := strBytes "baseUrl"

/-- Key `"appId"`. -/
def sAppId : List Nat := strBytes "appId"

/-- Key `"privateKey"`. -/
def sPrivateKey : List Nat := strBytes "privateKey"

/-- Key `"installationId"`. -/
def sInstallationId : List Nat := strBytes "installationId"

/-- Byte-list prefix test (JavaScript `String.prototype.startsWith` on the
byte model). -/
def isPrefixB : List Nat → List Nat → Bool
  | [], _ => true
  | _ :: _, [] => false
  | a :: as, b :: bs => a == b && isPrefixB as bs

/-- Byte-list substring test (JavaScript `String.prototype.includes` on the
byte model). -/
def containsB (pat : List Nat) : List Nat → Bool
  | [] => isPrefixB pat []
  | l@(_ :: rest) => isPrefixB pat l || containsB pat rest

/-- Splitting a byte string at commas, accumulator style (used only to state
the spec's "token among a comma-separated list" reading of the DEBUG flag). -/
def splitCommaAux : List Nat → List Nat → List (List Nat)
  | [], acc => [acc.reverse]
  | c :: rest, acc =>
    if c = 44 then acc.reverse :: splitCommaAux rest []
    else splitCommaAux rest (c :: acc)

/-- Comma-separated elements of a byte string. -/
def splitComma (l : List Nat) : List (List Nat) := splitCommaAux l []

/-- ASCII code of the n-th base64 digit (A-Z, a-z, 0-9, +, /). -/
def b64CharCode (n : Nat) : Nat :=
  if n < 26 then 65 + n
  else if n < 52 then 97 + (n - 26)
  else if n < 62 then 48 + (n - 52)
  else if n = 62 then 43
  else 47

/-- Six-bit value of a base64 digit's ASCII code. -/
def b64Value (c : Nat) : Nat :=
  if 65 ≤ c ∧ c ≤ 90 then c - 65
  else if 97 ≤ c ∧ c ≤ 122 then c - 97 + 26
  else if 48 ≤ c ∧ c ≤ 57 then c - 48 + 52
  else if c = 43 then 62
  else 63

/-- Modelled from the spec and Node's `Buffer.prototype.toString('base64')`
(an external collaborator of src/pool.ts): standard RFC 4648 base64 encoding
of a byte sequence, with `=` (61) padding. -/
def b64EncodeBytes : List Nat → List Nat
  | [] => []
  | [a] => [b64CharCode (a / 4), b64CharCode (a % 4 * 16), 61, 61]
  | [a, b] =>
    [b64CharCode (a / 4), b64CharCode (a % 4 * 16 + b / 16),
     b64CharCode (b % 16 * 4), 61]
  | a :: b :: c :: rest =>
    b64CharCode (a / 4) :: b64CharCode (a % 4 * 16 + b / 16) ::
    b64CharCode (b % 16 * 4 + c / 64) :: b64CharCode (c % 64) ::
    b64EncodeBytes rest

/-- Modelled from Node's `Buffer.from(key, 'base64')` followed by
`.toString('utf-8')` (external collaborators used by `decodePrivateKey` in
src/pool.ts), on well-formed base64 input: standard RFC 4648 decoding,
honouring `=` padding. -/
def b64DecodeBytes : List Nat → List Nat
  | c1 :: c2 :: c3 :: c4 :: rest =>
    if c3 = 61 then [b64Value c1 * 4 + b64Value c2 / 16]
    else if c4 = 61 then
      [b64Value c1 * 4 + b64Value c2 / 16,
       b64Value c2 % 16 * 16 + b64Value c3 / 4]
    else
      (b64Value c1 * 4 + b64Value c2 / 16) ::
      (b64Value c2 % 16 * 16 + b64Value c3 / 4) ::
      (b64Value c3 % 4 * 64 + b64Value c4) ::
      b64DecodeBytes rest
  | _ => []

/-- Bytes of the PEM header marker `"-----BEGIN "`. -/
def pemHeaderB : List Nat := strBytes "-----BEGIN "

/-- Bytes of the PEM footer marker `"-----END "`. -/
def pemFooterB : List Nat := strBytes "-----END "

/-- Embedding of `decodePrivateKey` (src/pool.ts, lines 122-127): a key that
starts with the PEM header marker and contains the footer marker is used
unchanged, anything else is treated as base64-encoded PEM and decoded. -/
def decodePrivateKey (key : List Nat) : List Nat :=
  if isPrefixB pemHeaderB key && containsB pemFooterB key then key
  else b64DecodeBytes key

/-- Rate limit data returned by a quota probe (src/types.ts `RateLimitData`). -/
structure RateLimitData where
  limit : Int
  used : Int
  remaining : Int
  reset : Int
  deriving DecidableEq

/-- Rate limit data tagged with the originating app index
(src/types.ts `RateLimitInfo`). -/
structure RateLimitInfo extends RateLimitData where
  appIndex : Nat
  deriving DecidableEq

/-- Observable construction parameters of the `Octokit` instance built by
`createOctokit` (src/pool.ts, lines 132-142). -/
structure OctokitClient where
  baseUrl : List Nat
  appId : JValue
  installationId : JValue
  privateKey : List Nat

/-- Default API endpoint substituted for a falsy `baseUrl`. -/
def defaultBaseUrl : List Nat := strBytes "https://api.github.com"

/-- Embedding of `createOctokit` (src/pool.ts, lines 132-142): the JavaScript
`baseUrl || 'https://api.github.com'` substitutes the default exactly when the
string is empty (the only falsy string). -/
def createOctokit (appConfig : JValue) (baseUrl : List Nat) : OctokitClient :=
  { baseUrl := if baseUrl.isEmpty then defaultBaseUrl else baseUrl
    appId := jProp appConfig sAppId
    installationId := jProp appConfig sInstallationId
    privateKey := decodePrivateKey (jStr (jProp appConfig sPrivateKey)) }

/-- Embedding of `isCompleteConfig` (src/pool.ts, lines 108-116). -/
def isCompleteConfig (config : JValue) : Bool :=
  jsTypeofObject config && !isJNull config &&
  jHasProp config sAppId && jHasProp config sPrivateKey &&
  (jTruthy (jProp config sAppId) && jTruthy (jProp config sPrivateKey))

/-- Error taxonomy of `getApp`, one constructor per distinct `throw` site. -/
inductive PoolError where
  | invalidApps
  | invalidBaseUrl
  | emptyPool
  | incompleteConfig (count : Nat)
  | poolExhausted
  deriving DecidableEq

/-- Exact message text of each error thrown by `getApp` (src/pool.ts). -/
def errorMessage : PoolError → List Nat
  | .invalidApps => strBytes "Invalid config: apps must be an array"
  | .invalidBaseUrl => strBytes "Invalid config: baseUrl must be a string"
  | .emptyPool => strBytes "Invalid config: apps array is empty"
  | .incompleteConfig k =>
    strBytes "Invalid config: " ++ strBytes (Nat.repr k) ++
    strBytes " app(s) missing required appId or privateKey"
  | .poolExhausted => strBytes "All GitHub Apps have exhausted their rate limits"

/-- Result of one `getApp` call, together with how many clients were
constructed and how many quota probes were issued before it settled. -/
structure GetAppTrace where
  clientsBuilt : Nat
  probeCount : Nat
  result : Except PoolError OctokitClient

/-- Reduce step of the selection (src/pool.ts, lines 78-86): a later snapshot
replaces the accumulator only when its `remaining` is strictly greater. -/
def bestStep (acc : Nat × RateLimitInfo) (ic : Nat × RateLimitInfo) :
    Nat × RateLimitInfo :=
  if ic.2.remaining > acc.2.remaining then ic else acc

/-- Elements of a list paired with their indices starting at `k` (the index
argument JavaScript's `reduce` passes to its callback). -/
def enumRLI (k : Nat) : List RateLimitInfo → List (Nat × RateLimitInfo)
  | [] => []
  | x :: xs => (k, x) :: enumRLI (k + 1) xs

/-- Placeholder snapshot for the unreachable empty-list read
`rateLimits[0]`. -/
def dRLI : RateLimitInfo := ⟨⟨0, 0, 0, 0⟩, 0⟩

/-- Placeholder client for the unreachable out-of-bounds read
`octokits[bestIndex]`. -/
def dClient : OctokitClient := ⟨[], .undefined, .undefined, []⟩

/-- Snapshots produced by the parallel probes (src/pool.ts `getRateLimit`):
each client's probe response, tagged with its original index. -/
def mkRateLimits (env : Nat → RateLimitData) (n : Nat) : List RateLimitInfo :=
  (List.range n).map (fun i => ⟨env i, i⟩)

/-- Embedding of `getApp` (src/pool.ts, lines 41-97); `env` supplies the
snapshot each quota probe reports (the claims assume every probe succeeds). -/
def getApp (config : JValue) (env : Nat → RateLimitData) : GetAppTrace :=
  if !isJSArray (jProp config sApps) then ⟨0, 0, .error .invalidApps⟩
  else if !isJSString (jProp config sBaseUrl) then ⟨0, 0, .error .invalidBaseUrl⟩
  else
    let apps := jArr (jProp config sApps)
    if apps.length = 0 then ⟨0, 0, .error .emptyPool⟩
    else
      let invalidApps := apps.filter (fun a => !isCompleteConfig a)
      if invalidApps.length > 0 then
        ⟨0, 0, .error (.incompleteConfig invalidApps.length)⟩
      else
        let baseUrl := jStr (jProp config sBaseUrl)
        let octokits := apps.map (fun a => createOctokit a baseUrl)
        let rateLimits := mkRateLimits env octokits.length
        let best := List.foldl bestStep (0, rateLimits.headD dRLI) (enumRLI 0 rateLimits)
        if best.2.remaining = 0 then
          ⟨octokits.length, octokits.length, .error .poolExhausted⟩
        else
          ⟨octokits.length, octokits.length, .ok (octokits.getD best.1 dClient)⟩

/-- The identifying token `'octokit-load-balancer'` (src/pool.ts `DEBUG_KEY`). -/
def DEBUG_KEY : List Nat := strBytes "octokit-load-balancer"

/-- Embedding of `isDebugEnabled` (src/pool.ts, lines 158-162); its argument
is the current value of the `DEBUG` environment variable (`none` = unset).
A falsy value (unset or empty) disables diagnostics; otherwise diagnostics
are on when the value is `'*'` or contains the token as a substring. -/
def isDebugEnabled (debug : Option (List Nat)) : Bool :=
  match debug with
  | none => false
  | some d => if d.isEmpty then false else d == [42] || containsB DEBUG_KEY d

/-- Embedding of `log` (src/pool.ts, lines 164-168): the list of lines one
diagnostic call writes, given the current `DEBUG` value and the rendered
arguments. `console.log` prefixes the fixed tag and joins with a space. -/
def logOutput (debug : Option (List Nat)) (msg : List Nat) : List (List Nat) :=
  if isDebugEnabled debug then [91 :: DEBUG_KEY ++ [93, 32] ++ msg] else []

/-- Error component of a trace's result, if any. -/
def traceError (t : GetAppTrace) : Option PoolError :=
  match t.result with
  | .error e => some e
  | .ok _ => none

/-- Whether a trace's result is a successfully returned client. -/
def traceOk (t : GetAppTrace) : Bool :=
  match t.result with
  | .ok _ => true
  | .error _ => false

theorem mkRateLimits_length (env : Nat → RateLimitData) (n : Nat) :
    (mkRateLimits env n).length = n := by
  simp [mkRateLimits]

theorem mkRateLimits_getD (env : Nat → RateLimitData) {n j : Nat} (hj : j < n) :
    (mkRateLimits env n).getD j dRLI = ⟨env j, j⟩ := by
  simp [mkRateLimits, List.getD_eq_getElem?_getD, List.getElem?_map,
    List.getElem?_range hj]

theorem mkRateLimits_headD (env : Nat → RateLimitData) {n : Nat} (hn : 0 < n) :
    (mkRateLimits env n).headD dRLI = ⟨env 0, 0⟩ := by
  cases n with
  | zero => omega
  | succ m => simp [mkRateLimits, List.range_succ_eq_map]

/-- Characterisation of the source's `reduce` over index-tagged snapshots:
the accumulated value dominates every element scanned, and the result is
either the initial accumulator or the first element strictly greater than
both the accumulator and every element before it. -/
theorem bestFold_spec (l : List RateLimitInfo) (k : Nat) (acc : Nat × RateLimitInfo) :
    (∀ x ∈ l, x.remaining ≤ (List.foldl bestStep acc (enumRLI k l)).2.remaining) ∧
    acc.2.remaining ≤ (List.foldl bestStep acc (enumRLI k l)).2.remaining ∧
    (List.foldl bestStep acc (enumRLI k l) = acc ∨
      ∃ j, j < l.length ∧
        List.foldl bestStep acc (enumRLI k l) = (k + j, l.getD j dRLI) ∧
        acc.2.remaining < (l.getD j dRLI).remaining ∧
        ∀ j', j' < j → (l.getD j' dRLI).remaining < (l.getD j dRLI).remaining) := by
  induction l generalizing k acc with
  | nil => exact ⟨by simp [enumRLI], by simp [enumRLI], Or.inl (by simp [enumRLI])⟩
  | cons x xs ih =>
    have hstep : List.foldl bestStep acc (enumRLI k (x :: xs)) =
        List.foldl bestStep (bestStep acc (k, x)) (enumRLI (k + 1) xs) := by
      simp [enumRLI]
    by_cases hx : acc.2.remaining < x.remaining
    · have hbs : bestStep acc (k, x) = (k, x) := by
        simp [bestStep, hx]
      obtain ⟨ih1, ih2, ih3⟩ := ih (k + 1) (k, x)
      rw [hstep, hbs]
      refine ⟨?_, ?_, ?_⟩
      · intro y hy
        rcases List.mem_cons.mp hy with rfl | hy
        · exact ih2
        · exact ih1 y hy
      · exact le_of_lt (lt_of_lt_of_le hx ih2)
      · rcases ih3 with heq | ⟨j, hj, heq, hlt, hfirst⟩
        · refine Or.inr ⟨0, by simp, ?_, ?_, ?_⟩
          · simpa using heq
          · simpa using hx
          · intro j' hj'; omega
        · refine Or.inr ⟨j + 1, by simpa using hj, ?_, ?_, ?_⟩
          · rw [heq]; simp [List.getD_cons_succ]; omega
          · simp only [List.getD_cons_succ]
            exact lt_trans hx hlt
          · intro j' hj'
            cases j' with
            | zero =>
              simp only [List.getD_cons_zero, List.getD_cons_succ]
              exact hlt
            | succ j'' =>
              simp only [List.getD_cons_succ]
              exact hfirst j'' (by omega)
    · have hbs : bestStep acc (k, x) = acc := by
        simp [bestStep]
        omega
      obtain ⟨ih1, ih2, ih3⟩ := ih (k + 1) acc
      rw [hstep, hbs]
      refine ⟨?_, ih2, ?_⟩
      · intro y hy
        rcases List.mem_cons.mp hy with rfl | hy
        · exact le_trans (by omega) ih2
        · exact ih1 y hy
      · rcases ih3 with heq | ⟨j, hj, heq, hlt, hfirst⟩
        · exact Or.inl heq
        · refine Or.inr ⟨j + 1, by simpa using hj, ?_, ?_, ?_⟩
          · rw [heq]; simp [List.getD_cons_succ]; omega
          · simp only [List.getD_cons_succ]
            exact hlt
          · intro j' hj'
            cases j' with
            | zero =>
              simp only [List.getD_cons_zero, List.getD_cons_succ]
              omega
            | succ j'' =>
              simp only [List.getD_cons_succ]
              exact hfirst j'' (by omega)

/-- Reduction of `getApp` on a request that passes all four validation
checks: it runs the probe/reduce/exhaustion pipeline. -/
theorem getApp_valid_eq (config : JValue) (env : Nat → RateLimitData)
    (apps : List JValue) (bu : List Nat)
    (hA : jProp config sApps = JValue.arr apps)
    (hB : jProp config sBaseUrl = JValue.str bu)
    (hne : apps ≠ [])
    (hall : ∀ a ∈ apps, isCompleteConfig a = true) :
    getApp config env =
      (if (List.foldl bestStep (0, (mkRateLimits env apps.length).headD dRLI)
            (enumRLI 0 (mkRateLimits env apps.length))).2.remaining = 0 then
        ⟨apps.length, apps.length, .error .poolExhausted⟩
      else
        ⟨apps.length, apps.length,
          .ok ((apps.map (fun a => createOctokit a bu)).getD
            (List.foldl bestStep (0, (mkRateLimits env apps.length).headD dRLI)
              (enumRLI 0 (mkRateLimits env apps.length))).1 dClient)⟩) := by
  have hfilter : apps.filter (fun a => !isCompleteConfig a) = [] := by
    rw [List.filter_eq_nil_iff]
    intro a ha
    simp [hall a ha]
  have hlen : apps.length ≠ 0 := by
    simpa using (List.length_pos.mpr hne).ne'
  simp only [getApp, hA, hB, isJSArray, isJSString, jArr, jStr, Bool.not_true,
    Bool.false_eq_true, if_false, hfilter, List.length_nil, List.length_map,
    if_neg hlen, gt_iff_lt, lt_irrefl]

/-- On a fully valid request the selection picks the earliest index whose
snapshot attains the maximum `remaining`, then either fails with
`poolExhausted` (when that maximum is zero) or returns the client built at
that index. -/
theorem getApp_select (config : JValue) (env : Nat → RateLimitData)
    (apps : List JValue) (bu : List Nat)
    (hA : jProp config sApps = JValue.arr apps)
    (hB : jProp config sBaseUrl = JValue.str bu)
    (hne : apps ≠ [])
    (hall : ∀ a ∈ apps, isCompleteConfig a = true) :
    ∃ i, i < apps.length ∧
      (∀ j, j < apps.length → (env j).remaining ≤ (env i).remaining) ∧
      (∀ j, j < i → (env j).remaining < (env i).remaining) ∧
      getApp config env =
        (if (env i).remaining = 0 then
          ⟨apps.length, apps.length, .error .poolExhausted⟩
        else
          ⟨apps.length, apps.length,
            .ok ((apps.map (fun a => createOctokit a bu)).getD i dClient)⟩) := by
  have hn : 0 < apps.length := List.length_pos.mpr hne
  have hvalid := getApp_valid_eq config env apps bu hA hB hne hall
  set l := mkRateLimits env apps.length with hl
  have hlength : l.length = apps.length := mkRateLimits_length env apps.length
  have hhead : l.headD dRLI = ⟨env 0, 0⟩ := mkRateLimits_headD env hn
  obtain ⟨h1, h2, h3⟩ := bestFold_spec l 0 (0, l.headD dRLI)
  set r := List.foldl bestStep (0, l.headD dRLI) (enumRLI 0 l) with hr
  have hmem : ∀ j, j < apps.length → (env j).remaining ≤ r.2.remaining := by
    intro j hj
    have hjl : j < l.length := by omega
    have hmem' : l.getD j dRLI ∈ l := by
      rw [List.getD_eq_getElem l dRLI hjl]
      exact List.getElem_mem hjl
    have := h1 (l.getD j dRLI) hmem'
    rwa [mkRateLimits_getD env hj] at this
  rcases h3 with heq | ⟨j, hj, heq, hlt, hfirst⟩
  · refine ⟨0, hn, ?_, ?_, ?_⟩
    · intro j hj
      have := hmem j hj
      rw [heq, hhead] at this
      exact this
    · intro j hj; omega
    · rw [hvalid, heq, hhead]
  · have hjn : j < apps.length := by omega
    refine ⟨j, hjn, ?_, ?_, ?_⟩
    · intro j' hj'
      have := hmem j' hj'
      rw [heq, mkRateLimits_getD env hjn] at this
      exact this
    · intro j' hj'
      have := hfirst j' hj'
      rw [mkRateLimits_getD env hjn,
        mkRateLimits_getD env (show j' < apps.length by omega)] at this
      exact this
    · rw [hvalid, heq, Nat.zero_add, mkRateLimits_getD env hjn]

/-- Complete app entry used by concrete witnesses. -/
def wApp (i : Nat) : JValue :=
  .obj [(sAppId, .str (strBytes (Nat.repr (i + 1)))),
        (sPrivateKey, .str (strBytes "-----BEGIN K-----END K"))]

/-- Two-entry pool used by concrete witnesses. -/
def wConfig2 : JValue :=
  .obj [(sApps, .arr [wApp 0, wApp 1]),
        (sBaseUrl, .str (strBytes "https://api.github.com"))]

/-- Probe environment of the spec's scenario A: remaining quotas 1000, 4000. -/
def wEnvA : Nat → RateLimitData :=
  fun i => ⟨5000, 0, if i = 0 then 1000 else 4000, 0⟩

/-- Probe environment with every quota exhausted. -/
def wEnvZero : Nat → RateLimitData := fun _ => ⟨5000, 5000, 0, 0⟩

/-- Probe environment with every remaining quota strictly negative. -/
def wEnvNeg : Nat → RateLimitData :=
  fun i => ⟨5000, 0, if i = 0 then -5 else -3, 0⟩

/-- Probe environment with a healthy uniform quota. -/
def wEnv0 : Nat → RateLimitData := fun _ => ⟨5000, 100, 4900, 0⟩

/-- C1: for a non-empty pool of valid entries whose probes all succeed, with
at least one snapshot having `remaining > 0`, `getApp` returns the client at
the earliest index attaining the maximum `remaining` (a later entry replaces
the running best only when strictly greater); the result is a function of the
`remaining` values indexed by original position — the probe environment `env`
is consulted only through those indexed values, so it is independent of probe
completion order. -/
theorem C1_getApp_returns_first_max (config : JValue) (env : Nat → RateLimitData)
    (apps : List JValue) (bu : List Nat)
    (hA : jProp config sApps = JValue.arr apps)
    (hB : jProp config sBaseUrl = JValue.str bu)
    (hne : apps ≠ [])
    (hall : ∀ a ∈ apps, isCompleteConfig a = true)
    (hsome : ∃ i, i < apps.length ∧ 0 < (env i).remaining) :
    ∃ i, i < apps.length ∧
      (∀ j, j < apps.length → (env j).remaining ≤ (env i).remaining) ∧
      (∀ j, j < i → (env j).remaining < (env i).remaining) ∧
      getApp config env =
        ⟨apps.length, apps.length,
          .ok ((apps.map (fun a => createOctokit a bu)).getD i dClient)⟩ := by
  obtain ⟨i, hi, hmax, hstrict, hres⟩ := getApp_select config env apps bu hA hB hne hall
  obtain ⟨i₀, hi₀, hpos⟩ := hsome
  have hnz : (env i).remaining ≠ 0 := by
    have := hmax i₀ hi₀
    omega
  exact ⟨i, hi, hmax, hstrict, by rwa [if_neg hnz] at hres⟩

/-- Witness for C1 at the spec's scenario A (remaining quotas 1000 and
4000): every hypothesis holds at this input and the selected index is 1. -/
theorem C1_witness :
    ∃ i, i < ([wApp 0, wApp 1] : List JValue).length ∧
      (∀ j, j < ([wApp 0, wApp 1] : List JValue).length →
        (wEnvA j).remaining ≤ (wEnvA i).remaining) ∧
      (∀ j, j < i → (wEnvA j).remaining < (wEnvA i).remaining) ∧
      getApp wConfig2 wEnvA =
        ⟨([wApp 0, wApp 1] : List JValue).length, ([wApp 0, wApp 1] : List JValue).length,
          .ok ((([wApp 0, wApp 1] : List JValue).map
            (fun a => createOctokit a (strBytes "https://api.github.com"))).getD i dClient)⟩ :=
  C1_getApp_returns_first_max wConfig2 wEnvA [wApp 0, wApp 1]
    (strBytes "https://api.github.com") rfl rfl (by simp) (by decide)
    ⟨1, by decide, by decide⟩

/-- C2: for a non-empty pool of valid entries whose probes all succeed, if the
maximum `remaining` across all snapshots is exactly zero, `getApp` fails with
the pool-exhausted error, whose message is
`'All GitHub Apps have exhausted their rate limits'`. -/
theorem C2_getApp_pool_exhausted (config : JValue) (env : Nat → RateLimitData)
    (apps : List JValue) (bu : List Nat)
    (hA : jProp config sApps = JValue.arr apps)
    (hB : jProp config sBaseUrl = JValue.str bu)
    (hne : apps ≠ [])
    (hall : ∀ a ∈ apps, isCompleteConfig a = true)
    (hle : ∀ j, j < apps.length → (env j).remaining ≤ 0)
    (hz : ∃ j, j < apps.length ∧ (env j).remaining = 0) :
    getApp config env = ⟨apps.length, apps.length, .error .poolExhausted⟩ ∧
    errorMessage .poolExhausted =
      strBytes "All GitHub Apps have exhausted their rate limits" := by
  obtain ⟨i, hi, hmax, _, hres⟩ := getApp_select config env apps bu hA hB hne hall
  obtain ⟨j₀, hj₀, hz0⟩ := hz
  have hzero : (env i).remaining = 0 := by
    have := hmax j₀ hj₀
    have := hle i hi
    omega
  exact ⟨by rwa [if_pos hzero] at hres, rfl⟩

/-- Witness for C2 at the spec's scenario B: both entries report zero
remaining quota and `getApp` fails with the pool-exhausted error. -/
theorem C2_witness :
    getApp wConfig2 wEnvZero =
      ⟨([wApp 0, wApp 1] : List JValue).length, ([wApp 0, wApp 1] : List JValue).length,
        .error .poolExhausted⟩ ∧
    errorMessage .poolExhausted =
      strBytes "All GitHub Apps have exhausted their rate limits" :=
  C2_getApp_pool_exhausted wConfig2 wEnvZero [wApp 0, wApp 1]
    (strBytes "https://api.github.com") rfl rfl (by simp) (by decide)
    (by decide) ⟨0, by decide, by decide⟩

/-- C9: when every snapshot's `remaining` is strictly negative, the
exhaustion check (an equality test against zero) does not fire: `getApp`
does not raise the pool-exhausted error and instead returns the client at
the earliest index holding the negative maximum. -/
theorem C9_getApp_negative_max (config : JValue) (env : Nat → RateLimitData)
    (apps : List JValue) (bu : List Nat)
    (hA : jProp config sApps = JValue.arr apps)
    (hB : jProp config sBaseUrl = JValue.str bu)
    (hne : apps ≠ [])
    (hall : ∀ a ∈ apps, isCompleteConfig a = true)
    (hneg : ∀ j, j < apps.length → (env j).remaining < 0) :
    traceError (getApp config env) ≠ some PoolError.poolExhausted ∧
    ∃ i, i < apps.length ∧ (env i).remaining < 0 ∧
      (∀ j, j < apps.length → (env j).remaining ≤ (env i).remaining) ∧
      (∀ j, j < i → (env j).remaining < (env i).remaining) ∧
      getApp config env =
        ⟨apps.length, apps.length,
          .ok ((apps.map (fun a => createOctokit a bu)).getD i dClient)⟩ := by
  obtain ⟨i, hi, hmax, hstrict, hres⟩ := getApp_select config env apps bu hA hB hne hall
  have hlt : (env i).remaining < 0 := hneg i hi
  have hnz : (env i).remaining ≠ 0 := by omega
  rw [if_neg hnz] at hres
  refine ⟨?_, i, hi, hlt, hmax, hstrict, hres⟩
  rw [hres]
  simp [traceError]

/-- Witness for C9: with remaining quotas -5 and -3 the call succeeds and
selects index 1 rather than failing with the pool-exhausted error. -/
theorem C9_witness :
    traceError (getApp wConfig2 wEnvNeg) ≠ some PoolError.poolExhausted ∧
    ∃ i, i < ([wApp 0, wApp 1] : List JValue).length ∧ (wEnvNeg i).remaining < 0 ∧
      (∀ j, j < ([wApp 0, wApp 1] : List JValue).length →
        (wEnvNeg j).remaining ≤ (wEnvNeg i).remaining) ∧
      (∀ j, j < i → (wEnvNeg j).remaining < (wEnvNeg i).remaining) ∧
      getApp wConfig2 wEnvNeg =
        ⟨([wApp 0, wApp 1] : List JValue).length, ([wApp 0, wApp 1] : List JValue).length,
          .ok ((([wApp 0, wApp 1] : List JValue).map
            (fun a => createOctokit a (strBytes "https://api.github.com"))).getD i dClient)⟩ :=
  C9_getApp_negative_max wConfig2 wEnvNeg [wApp 0, wApp 1]
    (strBytes "https://api.github.com") rfl rfl (by simp) (by decide) (by decide)

/-- C3: the validation checks of `getApp` run in the fixed order (1) apps is
an array, (2) baseUrl is a string, (3) apps non-empty, (4) every entry
complete, and the error raised is that of the first failing check — in
particular a request whose apps field is not an array fails with the apps
error whatever its baseUrl is.  The first two messages are
`'Invalid config: apps must be an array'` and
`'Invalid config: baseUrl must be a string'`. -/
theorem C3_validation_order (config : JValue) (env : Nat → RateLimitData) :
    (isJSArray (jProp config sApps) = false →
      getApp config env = ⟨0, 0, .error .invalidApps⟩) ∧
    (isJSArray (jProp config sApps) = true →
      isJSString (jProp config sBaseUrl) = false →
      getApp config env = ⟨0, 0, .error .invalidBaseUrl⟩) ∧
    (isJSArray (jProp config sApps) = true →
      isJSString (jProp config sBaseUrl) = true →
      jArr (jProp config sApps) = [] →
      getApp config env = ⟨0, 0, .error .emptyPool⟩) ∧
    (∀ k, isJSArray (jProp config sApps) = true →
      isJSString (jProp config sBaseUrl) = true →
      jArr (jProp config sApps) ≠ [] →
      ((jArr (jProp config sApps)).filter (fun a => !isCompleteConfig a)).length = k →
      0 < k →
      getApp config env = ⟨0, 0, .error (.incompleteConfig k)⟩) ∧
    errorMessage .invalidApps = strBytes "Invalid config: apps must be an array" ∧
    errorMessage .invalidBaseUrl = strBytes "Invalid config: baseUrl must be a string" := by
  refine ⟨?_, ?_, ?_, ?_, rfl, rfl⟩
  · intro h
    simp [getApp, h]
  · intro h1 h2
    simp [getApp, h1, h2]
  · intro h1 h2 h3
    simp [getApp, h1, h2, h3]
  · intro k h1 h2 h3 hk hkpos
    have hlen : (jArr (jProp config sApps)).length ≠ 0 := by
      simpa using (List.length_pos.mpr h3).ne'
    simp only [getApp, h1, h2, Bool.not_true, Bool.false_eq_true, if_false,
      if_neg hlen, hk, gt_iff_lt, if_pos hkpos]

/-- Witness for C3: each of the four checks fires first on a request built
to fail it — including a request whose apps is not an array and whose
baseUrl is not a string, which gets the apps error. -/
theorem C3_witness :
    getApp (.obj [(sApps, .num 3), (sBaseUrl, .num 42)]) wEnv0 =
      ⟨0, 0, .error .invalidApps⟩ ∧
    getApp (.obj [(sApps, .arr [wApp 0]), (sBaseUrl, .num 42)]) wEnv0 =
      ⟨0, 0, .error .invalidBaseUrl⟩ ∧
    getApp (.obj [(sApps, .arr []), (sBaseUrl, .str [])]) wEnv0 =
      ⟨0, 0, .error .emptyPool⟩ ∧
    getApp (.obj [(sApps, .arr [wApp 0, .null]), (sBaseUrl, .str [])]) wEnv0 =
      ⟨0, 0, .error (.incompleteConfig 1)⟩ :=
  ⟨(C3_validation_order (.obj [(sApps, .num 3), (sBaseUrl, .num 42)]) wEnv0).1 rfl,
   (C3_validation_order (.obj [(sApps, .arr [wApp 0]), (sBaseUrl, .num 42)]) wEnv0).2.1
     rfl rfl,
   (C3_validation_order (.obj [(sApps, .arr []), (sBaseUrl, .str [])]) wEnv0).2.2.1
     rfl rfl rfl,
   (C3_validation_order (.obj [(sApps, .arr [wApp 0, .null]), (sBaseUrl, .str [])])
     wEnv0).2.2.2.1 1 rfl rfl
     (by exact fun h => absurd (congrArg List.length h) (by decide))
     (by decide) (by decide)⟩

/-- C4 as stated is false: with an empty apps array and a non-numeric...
non-string baseUrl (here the number 42), `getApp` fails with the baseUrl
type error, not with the empty-pool error. -/
theorem C4_counterexample :
    traceError (getApp (.obj [(sApps, .arr []), (sBaseUrl, .num 42)]) wEnv0) ≠
      some PoolError.emptyPool ∧
    traceError (getApp (.obj [(sApps, .arr []), (sBaseUrl, .num 42)]) wEnv0) =
      some PoolError.invalidBaseUrl := by
  decide

/-- C4 (amended): for every request whose app list is an empty array and
whose baseUrl is a string, `getApp` fails with the empty-pool error
regardless of the string's value. -/
theorem C4_empty_pool (config : JValue) (env : Nat → RateLimitData)
    (hA : jProp config sApps = JValue.arr [])
    (hB : isJSString (jProp config sBaseUrl) = true) :
    getApp config env = ⟨0, 0, .error .emptyPool⟩ := by
  simp [getApp, hA, hB, isJSArray, jArr]

/-- Witness for C4 (amended) at a concrete empty pool. -/
theorem C4_witness :
    getApp (.obj [(sApps, .arr []), (sBaseUrl, .str (strBytes "https://x"))]) wEnv0 =
      ⟨0, 0, .error .emptyPool⟩ :=
  C4_empty_pool (.obj [(sApps, .arr []), (sBaseUrl, .str (strBytes "https://x"))])
    wEnv0 rfl rfl

/-- C5: a request that passes the shape and non-emptiness checks but has
k ≥ 1 incomplete entries fails with the incomplete-config error reporting
exactly k, with zero clients constructed and zero probes issued; an entry is
complete exactly when it is a (non-null) object with `appId` and
`privateKey` both present and truthy. -/
theorem C5_incomplete_config (config : JValue) (env : Nat → RateLimitData)
    (apps : List JValue) (k : Nat)
    (hA : jProp config sApps = JValue.arr apps)
    (hB : isJSString (jProp config sBaseUrl) = true)
    (hne : apps ≠ [])
    (hk : (apps.filter (fun a => !isCompleteConfig a)).length = k)
    (hkpos : 0 < k) :
    getApp config env = ⟨0, 0, .error (.incompleteConfig k)⟩ ∧
    (getApp config env).clientsBuilt = 0 ∧
    (getApp config env).probeCount = 0 ∧
    (∀ a, isCompleteConfig a = true ↔
      ((∃ fields, a = JValue.obj fields) ∧
        jHasProp a sAppId = true ∧ jHasProp a sPrivateKey = true ∧
        jTruthy (jProp a sAppId) = true ∧ jTruthy (jProp a sPrivateKey) = true)) := by
  have hlen : apps.length ≠ 0 := by
    simpa using (List.length_pos.mpr hne).ne'
  have hmain : getApp config env = ⟨0, 0, .error (.incompleteConfig k)⟩ := by
    simp only [getApp, hA, hB, isJSArray, jArr, Bool.not_true, Bool.false_eq_true,
      if_false, if_neg hlen, hk, gt_iff_lt, if_pos hkpos]
  refine ⟨hmain, by rw [hmain], by rw [hmain], ?_⟩
  intro a
  cases a <;> simp [isCompleteConfig, jsTypeofObject, isJNull, jHasProp, jProp, and_assoc]

/-- Witness for C5: a pool with one complete and two incomplete entries is
rejected with count 2 before any construction or probing. -/
theorem C5_witness :
    getApp (.obj [(sApps, .arr [wApp 0, .null, .obj []]), (sBaseUrl, .str [])]) wEnv0 =
      ⟨0, 0, .error (.incompleteConfig 2)⟩ ∧
    (getApp (.obj [(sApps, .arr [wApp 0, .null, .obj []]), (sBaseUrl, .str [])])
      wEnv0).clientsBuilt = 0 ∧
    (getApp (.obj [(sApps, .arr [wApp 0, .null, .obj []]), (sBaseUrl, .str [])])
      wEnv0).probeCount = 0 ∧
    (∀ a, isCompleteConfig a = true ↔
      ((∃ fields, a = JValue.obj fields) ∧
        jHasProp a sAppId = true ∧ jHasProp a sPrivateKey = true ∧
        jTruthy (jProp a sAppId) = true ∧ jTruthy (jProp a sPrivateKey) = true)) :=
  C5_incomplete_config (.obj [(sApps, .arr [wApp 0, .null, .obj []]), (sBaseUrl, .str [])])
    wEnv0 [wApp 0, .null, .obj []] 2 rfl rfl (by simp) (by decide) (by decide)

/-- Indexing into the constructed client list is building the client from
the entry at that index. -/
theorem getD_map_createOctokit (apps : List JValue) (bu : List Nat) {i : Nat}
    (hi : i < apps.length) :
    (apps.map (fun a => createOctokit a bu)).getD i dClient =
      createOctokit (apps.getD i JValue.undefined) bu := by
  have hi' : i < (apps.map (fun a => createOctokit a bu)).length := by simpa
  rw [List.getD_eq_getElem _ _ hi', List.getD_eq_getElem _ _ hi, List.getElem_map]

/-- C6 as stated is false: a request whose baseUrl is the empty string is
not rejected — `getApp` proceeds to construct a client, probe its quota and
return it. -/
theorem C6_counterexample :
    traceOk (getApp (.obj [(sApps, .arr [wApp 0]), (sBaseUrl, .str [])]) wEnv0) = true ∧
    (getApp (.obj [(sApps, .arr [wApp 0]), (sBaseUrl, .str [])]) wEnv0).clientsBuilt = 1 ∧
    (getApp (.obj [(sApps, .arr [wApp 0]), (sBaseUrl, .str [])]) wEnv0).probeCount = 1 := by
  decide

/-- C6 (amended): an empty-string baseUrl passes the string-type validation,
so `getApp` never rejects a request with the baseUrl type error on its
account; when the rest of the request is valid it proceeds to construct
clients and probe quotas (the default endpoint being substituted at client
construction). -/
theorem C6_empty_baseUrl_not_rejected (config : JValue) (env : Nat → RateLimitData)
    (hB : jProp config sBaseUrl = JValue.str []) :
    traceError (getApp config env) ≠ some PoolError.invalidBaseUrl ∧
    (∀ apps, jProp config sApps = JValue.arr apps → apps ≠ [] →
      (∀ a ∈ apps, isCompleteConfig a = true) →
      (getApp config env).clientsBuilt = apps.length ∧
      (getApp config env).probeCount = apps.length) := by
  constructor
  · cases hA : isJSArray (jProp config sApps) with
    | false =>
      simp [getApp, hA, traceError]
    | true =>
      simp only [getApp, hA, hB, isJSString, Bool.not_true, Bool.not_false,
        Bool.false_eq_true, if_false, if_true]
      split
      · simp [traceError]
      · split
        · simp [traceError]
        · split
          · simp [traceError]
          · simp [traceError]
  · intro apps hA hne hall
    rw [getApp_valid_eq config env apps [] hA hB hne hall]
    refine ⟨?_, ?_⟩ <;> (split <;> rfl)

/-- Witness for C6 (amended) at a concrete one-entry request with empty
baseUrl. -/
theorem C6_witness :
    traceError (getApp (.obj [(sApps, .arr [wApp 0]), (sBaseUrl, .str [])]) wEnv0) ≠
      some PoolError.invalidBaseUrl ∧
    (getApp (.obj [(sApps, .arr [wApp 0]), (sBaseUrl, .str [])]) wEnv0).clientsBuilt = 1 ∧
    (getApp (.obj [(sApps, .arr [wApp 0]), (sBaseUrl, .str [])]) wEnv0).probeCount = 1 := by
  have h := C6_empty_baseUrl_not_rejected
    (.obj [(sApps, .arr [wApp 0]), (sBaseUrl, .str [])]) wEnv0 rfl
  exact ⟨h.1, h.2 [wApp 0] rfl (by simp) (by decide)⟩

/-- C10: when baseUrl is the empty string (which passes the string-type
check), every client in the pool is constructed with the default endpoint
`'https://api.github.com'` silently substituted, and selection proceeds
normally: all probes are issued and the call either returns the client at
the winning index (built with the default endpoint) or fails with the
pool-exhausted error. -/
theorem C10_empty_baseUrl_default (config : JValue) (env : Nat → RateLimitData)
    (apps : List JValue)
    (hA : jProp config sApps = JValue.arr apps)
    (hB : jProp config sBaseUrl = JValue.str [])
    (hne : apps ≠ [])
    (hall : ∀ a ∈ apps, isCompleteConfig a = true) :
    (∀ c ∈ apps.map (fun a => createOctokit a []), c.baseUrl = defaultBaseUrl) ∧
    (getApp config env).clientsBuilt = apps.length ∧
    (getApp config env).probeCount = apps.length ∧
    ((getApp config env).result = .error .poolExhausted ∨
      ∃ i, i < apps.length ∧
        (getApp config env).result = .ok (createOctokit (apps.getD i JValue.undefined) []) ∧
        (createOctokit (apps.getD i JValue.undefined) []).baseUrl = defaultBaseUrl) := by
  have hBu : jProp config sBaseUrl = JValue.str ([] : List Nat) := hB
  obtain ⟨i, hi, hmax, hstrict, hres⟩ := getApp_select config env apps [] hA hBu hne hall
  refine ⟨?_, ?_, ?_, ?_⟩
  · intro c hc
    obtain ⟨a, _, rfl⟩ := List.mem_map.mp hc
    simp [createOctokit]
  · rw [hres]; split <;> rfl
  · rw [hres]; split <;> rfl
  · by_cases hz : (env i).remaining = 0
    · left
      rw [hres, if_pos hz]
    · right
      refine ⟨i, hi, ?_, by simp [createOctokit]⟩
      rw [hres, if_neg hz, getD_map_createOctokit apps [] hi]

/-- Witness for C10 at a concrete two-entry request with empty baseUrl. -/
theorem C10_witness :
    (∀ c ∈ ([wApp 0, wApp 1] : List JValue).map (fun a => createOctokit a []),
      c.baseUrl = defaultBaseUrl) ∧
    (getApp (.obj [(sApps, .arr [wApp 0, wApp 1]), (sBaseUrl, .str [])]) wEnvA).clientsBuilt =
      ([wApp 0, wApp 1] : List JValue).length ∧
    (getApp (.obj [(sApps, .arr [wApp 0, wApp 1]), (sBaseUrl, .str [])]) wEnvA).probeCount =
      ([wApp 0, wApp 1] : List JValue).length ∧
    ((getApp (.obj [(sApps, .arr [wApp 0, wApp 1]), (sBaseUrl, .str [])]) wEnvA).result =
        .error .poolExhausted ∨
      ∃ i, i < ([wApp 0, wApp 1] : List JValue).length ∧
        (getApp (.obj [(sApps, .arr [wApp 0, wApp 1]), (sBaseUrl, .str [])]) wEnvA).result =
          .ok (createOctokit (([wApp 0, wApp 1] : List JValue).getD i JValue.undefined) []) ∧
        (createOctokit (([wApp 0, wApp 1] : List JValue).getD i JValue.undefined) []).baseUrl =
          defaultBaseUrl) :=
  C10_empty_baseUrl_default (.obj [(sApps, .arr [wApp 0, wApp 1]), (sBaseUrl, .str [])])
    wEnvA [wApp 0, wApp 1] rfl rfl (by simp) (by decide)

/-- C8 as stated is false: with `DEBUG='octokit-load-balancers'` the token
`'octokit-load-balancer'` occurs only as a substring, not as an element of
the comma-separated list (whose sole element is `'octokit-load-balancers'`),
yet the diagnostic call emits a line, because the code tests substring
containment via `includes`. -/
theorem C8_counterexample :
    logOutput (some (strBytes "octokit-load-balancers")) [] ≠ [] ∧
    strBytes "octokit-load-balancers" ≠ [42] ∧
    ¬ DEBUG_KEY ∈ splitComma (strBytes "octokit-load-balancers") := by
  decide

/-- C8 (amended): a diagnostic call emits a line — always the single line
made of the fixed tag `'[octokit-load-balancer]'` followed by the message —
if and only if DEBUG is set, non-empty, and either equals the wildcard
`'*'` or contains the token `'octokit-load-balancer'` as a substring (not
necessarily as a comma-separated element); for any other value, including
unset and empty, the call is a no-op producing zero output. -/
theorem isDebugEnabled_iff (debug : Option (List Nat)) :
    isDebugEnabled debug = true ↔
      ∃ d, debug = some d ∧ d ≠ [] ∧
        (d = [42] ∨ containsB DEBUG_KEY d = true) := by
  cases debug with
  | none => simp [isDebugEnabled]
  | some d =>
    simp only [isDebugEnabled, Option.some.injEq]
    by_cases hd : d = []
    · subst hd
      simp
    · have hempty : d.isEmpty = false := by
        simpa [List.isEmpty_iff] using hd
      rw [hempty]
      simp [hd]

theorem C8_debug_gating (debug : Option (List Nat)) (msg : List Nat) :
    (logOutput debug msg ≠ [] ↔
      ∃ d, debug = some d ∧ d ≠ [] ∧
        (d = [42] ∨ containsB DEBUG_KEY d = true)) ∧
    (logOutput debug msg = [] ∨
      logOutput debug msg = [91 :: DEBUG_KEY ++ [93, 32] ++ msg]) := by
  have hiff := isDebugEnabled_iff debug
  constructor
  · simp only [logOutput]
    split
    · next hen => exact iff_of_true (by simp) (hiff.mp hen)
    · next hen =>
      refine iff_of_false (by simp) ?_
      rw [← hiff]
      exact hen
  · simp only [logOutput]
    split
    · right; rfl
    · left; rfl

/-- Inverse property of the base64 digit tables: decoding a digit's ASCII
code recovers its six-bit value. -/
theorem b64Value_b64CharCode {n : Nat} (h : n < 64) :
    b64Value (b64CharCode n) = n := by
  unfold b64CharCode b64Value
  split_ifs <;> omega

/-- A base64 digit's ASCII code is never `'='` (61) nor `'-'` (45). -/
theorem b64CharCode_ne {n : Nat} (h : n < 64) :
    b64CharCode n ≠ 61 ∧ b64CharCode n ≠ 45 := by
  unfold b64CharCode
  split_ifs <;> omega

/-- Base64 decoding inverts base64 encoding on byte sequences. -/
theorem b64_roundtrip (l : List Nat) (h : ∀ b ∈ l, b < 256) :
    b64DecodeBytes (b64EncodeBytes l) = l := by
  induction l using b64EncodeBytes.induct with
  | case1 => rfl
  | case2 a =>
    have ha : a < 256 := h a (by simp)
    simp only [b64EncodeBytes, b64DecodeBytes, eq_self_iff_true, if_true]
    rw [b64Value_b64CharCode (by omega), b64Value_b64CharCode (by omega)]
    simp only [List.cons.injEq, and_true]
    omega
  | case3 a b =>
    have ha : a < 256 := h a (by simp)
    have hb : b < 256 := h b (by simp)
    simp only [b64EncodeBytes, b64DecodeBytes, eq_self_iff_true, if_true]
    rw [if_neg (b64CharCode_ne (show b % 16 * 4 < 64 by omega)).1]
    rw [b64Value_b64CharCode (by omega), b64Value_b64CharCode (by omega),
      b64Value_b64CharCode (by omega)]
    simp only [List.cons.injEq, and_true]
    omega
  | case4 a b c rest ih =>
    have ha : a < 256 := h a (by simp)
    have hb : b < 256 := h b (by simp)
    have hc : c < 256 := h c (by simp)
    simp only [b64EncodeBytes, b64DecodeBytes]
    rw [if_neg (b64CharCode_ne (show b % 16 * 4 + c / 64 < 64 by omega)).1,
      if_neg (b64CharCode_ne (show c % 64 < 64 by omega)).1]
    rw [b64Value_b64CharCode (by omega), b64Value_b64CharCode (by omega),
      b64Value_b64CharCode (by omega), b64Value_b64CharCode (by omega)]
    rw [ih (fun x hx => h x (by simp [hx]))]
    simp only [List.cons.injEq, and_true]
    omega

/-- C7: private key normalisation is idempotent on PEM text — any byte
string starting with the header marker `'-----BEGIN '` and containing the
footer marker `'-----END '` passes through `decodePrivateKey` unchanged —
and round-trips through base64: decoding the base64 encoding of such PEM
text returns the original text exactly. -/
theorem C7_decodePrivateKey_pem (k : List Nat)
    (hhdr : isPrefixB pemHeaderB k = true)
    (hftr : containsB pemFooterB k = true) :
    decodePrivateKey k = k ∧
    ((∀ b ∈ k, b < 256) → decodePrivateKey (b64EncodeBytes k) = k) := by
  constructor
  · simp [decodePrivateKey, hhdr, hftr]
  · intro hb
    have hph : pemHeaderB = [45, 45, 45, 45, 45, 66, 69, 71, 73, 78, 32] := by
      decide
    obtain ⟨t, rfl⟩ : ∃ t, k = 45 :: t := by
      cases k with
      | nil => exact absurd hhdr (by decide)
      | cons x t =>
        rw [hph] at hhdr
        simp only [isPrefixB, Bool.and_eq_true, beq_iff_eq] at hhdr
        exact ⟨t, by rw [hhdr.1]⟩
    obtain ⟨r, hr⟩ : ∃ r, b64EncodeBytes (45 :: t) = b64CharCode (45 / 4) :: r := by
      match t with
      | [] => exact ⟨_, rfl⟩
      | [b] => exact ⟨_, rfl⟩
      | b :: c :: rest => exact ⟨_, rfl⟩
    have h76 : b64CharCode (45 / 4) = 76 := by decide
    have hpre : isPrefixB pemHeaderB (b64EncodeBytes (45 :: t)) = false := by
      rw [hr, hph, h76]
      simp [isPrefixB]
    unfold decodePrivateKey
    rw [hpre]
    simp only [Bool.false_and, Bool.false_eq_true, if_false]
    exact b64_roundtrip _ hb

/-- Witness for C7 at a concrete PEM text: it passes through unchanged, and
decoding its base64 encoding recovers it exactly. -/
theorem C7_witness :
    decodePrivateKey (strBytes "-----BEGIN K-----END K") =
      strBytes "-----BEGIN K-----END K" ∧
    decodePrivateKey (b64EncodeBytes (strBytes "-----BEGIN K-----END K")) =
      strBytes "-----BEGIN K-----END K" :=
  ⟨(C7_decodePrivateKey_pem (strBytes "-----BEGIN K-----END K")
      (by decide) (by decide)).1,
   (C7_decodePrivateKey_pem (strBytes "-----BEGIN K-----END K")
      (by decide) (by decide)).2 (by decide)⟩

end OLB
